import Mathlib

/-
Verification of the Struktos structured logger (src/core/StruktosLogger.ts,
src/interfaces/ILogger.ts) via a shallow embedding in Lean 4.

Modelling conventions:
- JavaScript runtime values that can appear in log metadata are modelled by
  the inductive `JSValue`.  JS truthiness is `truthy`, `String(v)` is
  `jsToString`.
- A JS plain object used as a metadata map is modelled as an association
  list `Metadata`; property lookup is last-occurrence-wins (`getKey`), and
  object spread `\x7b ...a, ...b \x7d` is `mergeMeta a b`, which keeps the
  position of an overridden key (as JS spread does) and appends fresh keys.
- `new Date().toISOString()` is modelled by an abstract clock value
  (a natural number) passed explicitly into each logging call; ISO-8601
  strings compare like the instants they denote, so order is preserved.
- The ambient `RequestContext.current()` collaborator is modelled by the
  inductive `AmbientContext`: it can be absent, throw, or hold data; the
  try/catch in `extractContextData` maps the throwing case to the empty
  enrichment, exactly as the source does.
- The output sink is modelled as a possibly-throwing function
  `LogEntry → Except String Unit`; `logWith` mirrors the unguarded
  `this.options.output(entry)` call in `StruktosLogger.log`.
- Each logging method returns `Option LogEntry`: `some e` means the sink is
  invoked exactly once with record `e`; `none` means the call returned at
  the level filter with no record built and no sink invocation.
-/

namespace StruktosLog

/-- Model of the JavaScript values that flow through the logger: metadata
values, error values, and context values.  `errObj` models an instance of
`Error` with its `name`, `message`, optional `stack`, and its further
enumerable own properties. -/
inductive JSValue where
  | undef : JSValue
  | null : JSValue
  | bool : Bool → JSValue
  | num : Int → JSValue
  | str : String → JSValue
  | obj : List (String × JSValue) → JSValue
  | errObj : String → String → Option String → List (String × JSValue) → JSValue

/-- JavaScript truthiness of a modelled value (used by `if (x)` and `x && y`
in the source).  Objects, including error objects and the empty object, are
truthy. -/
def truthy : JSValue → Bool
  | .undef => false
  | .null => false
  | .bool b => b
  | .num n => n != 0
  | .str s => !s.isEmpty
  | .obj _ => true
  | .errObj _ _ _ _ => true

/-- JavaScript `String(v)` on the modelled values (used by `serializeError`
for non-Error inputs). -/
def jsToString : JSValue → String
  | .undef => "undefined"
  | .null => "null"
  | .bool b => if b then "true" else "false"
  | .num n => toString n
  | .str s => s
  | .obj _ => "[object Object]"
  | .errObj n m _ _ => n ++ ": " ++ m

/-- A JS plain object used as a metadata map: an association list from
property names to values.  Lookup is last-occurrence-wins, so a list built
by repeated spreads denotes the same map as the JS object it models. -/
abbrev Metadata : Type := List (String × JSValue)

/-- Property lookup on a metadata map; the LAST occurrence of a key wins,
matching JS object construction where later assignments override. -/
def getKey : Metadata → String → Option JSValue
  | [], _ => none
  | (k, v) :: rest, key =>
      match getKey rest key with
      | some w => some w
      | none => if k = key then some v else none

/-- Whether a metadata map has a property named `k`. -/
def hasKey (m : Metadata) (k : String) : Bool :=
  m.any (fun p => p.1 == k)

/-- Setting one property on a metadata map, as JS object spread does: an
existing key keeps its position and takes the new value, a fresh key is
appended. -/
def setKey (m : Metadata) (k : String) (v : JSValue) : Metadata :=
  if hasKey m k then
    m.map (fun p => if p.1 = k then (k, v) else p)
  else
    m ++ [(k, v)]

/-- JS object spread: `mergeMeta a b` models `\x7b ...a, ...b \x7d`, the
properties of `b` set one by one on top of `a`, later ones overriding. -/
def mergeMeta (a b : Metadata) : Metadata :=
  b.foldl (fun acc p => setKey acc p.1 p.2) a

/-- Object rest-destructuring minus one key: `removeKey m k` models the
`restMetadata` of `const \x7b error, ...restMetadata \x7d = m` (with
`k = "error"`). -/
def removeKey : Metadata → String → Metadata
  | [], _ => []
  | p :: rest, k => if p.1 = k then removeKey rest k else p :: removeKey rest k

/-- First-some choice on options, used to state override precedence. -/
def firstSome (a b : Option JSValue) : Option JSValue :=
  match a with
  | some v => some v
  | none => b

/-- Log level type from ILogger.ts. -/
inductive LogLevel where
  | debug : LogLevel
  | info : LogLevel
  | warn : LogLevel
  | error : LogLevel
deriving DecidableEq, Repr

/-- Log level priorities for filtering (the LOG_LEVELS record in
StruktosLogger.ts): debug=0, info=1, warn=2, error=3. -/
def LOG_LEVELS : LogLevel → Nat
  | .debug => 0
  | .info => 1
  | .warn => 2
  | .error => 3

/-- The logger's resolved configuration: `Required<StruktosLoggerOptions>`
as stored in `this.options` after the constructor fills defaults.  The
`output` sink is a function and is passed separately to `logWith`; the
record's logical content never depends on it or on `prettyPrint`. -/
structure LoggerOptions where
  minLevel : LogLevel
  prettyPrint : Bool
  includeStackTrace : Bool
  defaultMetadata : Metadata
  enrichWithContext : Bool

/-- The constructor's input `StruktosLoggerOptions`: every field optional. -/
structure StruktosLoggerOptions where
  minLevel : Option LogLevel := none
  prettyPrint : Option Bool := none
  includeStackTrace : Option Bool := none
  defaultMetadata : Option Metadata := none
  enrichWithContext : Option Bool := none

/-- The constructor's defaulting of options.  In the source, `minLevel` uses
`options.minLevel || 'info'` and `defaultMetadata` uses
`options.defaultMetadata || \x7b\x7d`: since a present `minLevel` is one of
four non-empty (hence truthy) strings and a present `defaultMetadata` is an
object (always truthy, even when empty), both coincide with
presence-defaulting; the remaining fields use `??` which is
presence-defaulting exactly. -/
def mkOptions (o : StruktosLoggerOptions) : LoggerOptions where
  minLevel := o.minLevel.getD .info
  prettyPrint := o.prettyPrint.getD false
  includeStackTrace := o.includeStackTrace.getD true
  defaultMetadata := o.defaultMetadata.getD ([] : List (String × JSValue))
  enrichWithContext := o.enrichWithContext.getD true

/-- Re-wrapping a resolved configuration as constructor input, as
`child` does when it passes `this.options` (a `Required<...>` value, every
field present) to `new StruktosLogger(...)`. -/
def fromRequired (o : LoggerOptions) : StruktosLoggerOptions where
  minLevel := some o.minLevel
  prettyPrint := some o.prettyPrint
  includeStackTrace := some o.includeStackTrace
  defaultMetadata := some o.defaultMetadata
  enrichWithContext := some o.enrichWithContext

/-- A logger instance: resolved options plus accumulated child metadata. -/
structure StruktosLogger where
  options : LoggerOptions
  childMetadata : Metadata

/-- The constructor `new StruktosLogger(options, childMetadata)`. -/
def StruktosLogger.mkLogger (o : StruktosLoggerOptions) (cm : Metadata) :
    StruktosLogger where
  options := mkOptions o
  childMetadata := cm

/-- The result of the ambient `RequestContext.current()` collaborator at the
moment of one logging call: no current context, a context holding data, or a
lookup that throws. -/
inductive AmbientContext where
  | noCtx : AmbientContext
  | throws : AmbientContext
  | active : Metadata → AmbientContext

/-- The context fields the enrichment step can contribute. -/
structure ContextData where
  traceId : Option JSValue := none
  requestId : Option JSValue := none
  userId : Option JSValue := none

/-- Keep a looked-up context value only if it is truthy, as the source's
`const x = context.get(k); if (x) contextData.x = x` does. -/
def keepTruthy : Option JSValue → Option JSValue
  | some v => if truthy v then some v else none
  | none => none

/-- StruktosLogger.extractContextData: inside a try/catch, read the current
context; when there is none return the empty object, when the lookup throws
return the empty object (the catch branch), otherwise copy each of
traceId/requestId/userId into the result only when present and truthy. -/
def extractContextData (amb : AmbientContext) : ContextData :=
  match amb with
  | .noCtx => {}
  | .throws => {}
  | .active d =>
      { traceId := keepTruthy (getKey d "traceId")
        requestId := keepTruthy (getKey d "requestId")
        userId := keepTruthy (getKey d "userId") }

/-- A structured log entry (interfaces/ILogger.ts `LogEntry`): a missing
optional field of the JS object is `none`. -/
structure LogEntry where
  level : LogLevel
  message : String
  timestamp : Nat
  traceId : Option JSValue := none
  requestId : Option JSValue := none
  userId : Option JSValue := none
  metadata : Option Metadata := none
  error : Option JSValue := none

/-- StruktosLogger.buildLogEntry: base entry with level, message and the
timestamp captured now; context enrichment when enabled; metadata merged as
defaultMetadata, then childMetadata, then the per-call metadata; then, when
the merged map is non-empty, the `error` property is destructured out, the
rest becomes the `metadata` field only if non-empty, and the destructured
`error` value becomes the `error` field only if truthy (`if (error)`). -/
def StruktosLogger.buildLogEntry (L : StruktosLogger) (level : LogLevel)
    (message : String) (metadata : Metadata) (now : Nat)
    (amb : AmbientContext) : LogEntry :=
  let ctx : ContextData :=
    if L.options.enrichWithContext then extractContextData amb else {}
  let base : LogEntry :=
    { level := level, message := message, timestamp := now,
      traceId := ctx.traceId, requestId := ctx.requestId,
      userId := ctx.userId }
  let allMetadata : Metadata :=
    mergeMeta (mergeMeta L.options.defaultMetadata L.childMetadata) metadata
  if allMetadata.isEmpty then base
  else
    let errVal := getKey allMetadata "error"
    let rest := removeKey allMetadata "error"
    let e1 := if rest.isEmpty then base else { base with metadata := some rest }
    match errVal with
    | some v => if truthy v then { e1 with error := some v } else e1
    | none => e1

/-- StruktosLogger.shouldLog: `LOG_LEVELS[level] >= LOG_LEVELS[minLevel]`. -/
def StruktosLogger.shouldLog (L : StruktosLogger) (level : LogLevel) : Bool :=
  LOG_LEVELS level ≥ LOG_LEVELS L.options.minLevel

/-- StruktosLogger.log: return immediately when the level is filtered
(no record, no sink call, modelled as `none`); otherwise build the entry and
hand it to the sink (modelled as `some entry`, the sink's one argument). -/
def StruktosLogger.log (L : StruktosLogger) (level : LogLevel)
    (message : String) (metadata : Metadata) (now : Nat)
    (amb : AmbientContext) : Option LogEntry :=
  if L.shouldLog level then
    some (L.buildLogEntry level message metadata now amb)
  else
    none

/-- StruktosLogger.debug. A call without a metadata argument passes the
empty map (spreading `undefined` contributes no properties). -/
def StruktosLogger.debug (L : StruktosLogger) (message : String)
    (metadata : Metadata) (now : Nat) (amb : AmbientContext) :
    Option LogEntry :=
  L.log .debug message metadata now amb

/-- StruktosLogger.info. -/
def StruktosLogger.info (L : StruktosLogger) (message : String)
    (metadata : Metadata) (now : Nat) (amb : AmbientContext) :
    Option LogEntry :=
  L.log .info message metadata now amb

/-- StruktosLogger.warn. -/
def StruktosLogger.warn (L : StruktosLogger) (message : String)
    (metadata : Metadata) (now : Nat) (amb : AmbientContext) :
    Option LogEntry :=
  L.log .warn message metadata now amb

/-- StruktosLogger.serializeError: `if (!error) return undefined` (a FALSY
argument, not only a nullish one, yields no serialization); an `Error`
instance yields an object with `name`, `message`, `stack` only when
`includeStackTrace` is set and the stack is truthy, then every further own
enumerable property other than name/message/stack copied through; any other
value yields an object with only `message: String(error)`. -/
def StruktosLogger.serializeError (L : StruktosLogger) (e : JSValue) :
    Option JSValue :=
  if !truthy e then none
  else
    match e with
    | .errObj name msg stack extra =>
        let base : List (String × JSValue) :=
          [("name", .str name), ("message", .str msg)]
        let withStack : List (String × JSValue) :=
          match stack with
          | some st =>
              if L.options.includeStackTrace && !st.isEmpty then
                base ++ [("stack", .str st)]
              else base
          | none => base
        some (.obj (withStack ++
          extra.filter (fun p =>
            p.1 != "name" && p.1 != "message" && p.1 != "stack")))
    | v => some (.obj [("message", .str (jsToString v))])

/-- StruktosLogger.error: serialize the error value; when a serialization
exists, spread it under the reserved key `error` on top of the per-call
metadata (`\x7b ...metadata, ...(errorData && \x7b error: errorData \x7d) \x7d`);
then delegate to log at level error. -/
def StruktosLogger.errorCall (L : StruktosLogger) (message : String)
    (errv : JSValue) (metadata : Metadata) (now : Nat)
    (amb : AmbientContext) : Option LogEntry :=
  let errorData := L.serializeError errv
  let mergedMetadata :=
    match errorData with
    | some d => mergeMeta metadata [("error", d)]
    | none => metadata
  L.log .error message mergedMetadata now amb

/-- StruktosLogger.child: a new logger from the parent's resolved options
(passed back through the constructor, which re-resolves them) and the
parent's child metadata spread-merged with the new metadata. -/
def StruktosLogger.child (L : StruktosLogger) (metadata : Metadata) :
    StruktosLogger :=
  StruktosLogger.mkLogger (fromRequired L.options)
    (mergeMeta L.childMetadata metadata)

/-- The dispatch of StruktosLogger.log including the sink call: the source
invokes `this.options.output(entry)` with no try/catch around it, so a
throwing sink (modelled as `Except.error`) propagates to the caller. -/
def StruktosLogger.logWith (L : StruktosLogger)
    (sink : LogEntry → Except String Unit) (level : LogLevel)
    (message : String) (metadata : Metadata) (now : Nat)
    (amb : AmbientContext) : Except String Unit :=
  match L.log level message metadata now amb with
  | some e => sink e
  | none => Except.ok ()

/-- Whether the modelled value is an `Error` instance — the source's
`error instanceof Error` test. -/
def instanceofError : JSValue → Bool
  | .errObj _ _ _ _ => true
  | _ => false

/-- The field list of the object `serializeError` produces for an `Error`
instance: `name`, `message`, then `stack` when `includeStackTrace` is set
and the stack is truthy, then the further own enumerable properties other
than name/message/stack.  Proved equal to the source function's output in
`serializeError_errObj`. -/
def serializedErrorFields (L : StruktosLogger) (name emsg : String)
    (stack : Option String) (extra : Metadata) : Metadata :=
  (match stack with
   | some st =>
       if (L.options.includeStackTrace && !st.isEmpty) = true then
         [("name", .str name), ("message", .str emsg), ("stack", .str st)]
       else [("name", .str name), ("message", .str emsg)]
   | none => [("name", .str name), ("message", .str emsg)])
  ++ extra.filter (fun p =>
      p.1 != "name" && p.1 != "message" && p.1 != "stack")

/-- The merged metadata map a single call works with, exactly as
`buildLogEntry` computes it: defaultMetadata, then the accumulated child
metadata, then the per-call metadata, later spreads overriding. -/
def mergedCallMetadata (L : StruktosLogger) (m : Metadata) : Metadata :=
  mergeMeta (mergeMeta L.options.defaultMetadata L.childMetadata) m

/-! Sample loggers, metadata and sinks used by the concrete witnesses. -/

/-- A logger constructed with all defaults: minLevel info, stack traces on,
context enrichment on, empty default metadata. -/
def plainLogger : StruktosLogger := StruktosLogger.mkLogger {} []

/-- A logger with minLevel warn, for level-filtering witnesses. -/
def warnLogger : StruktosLogger :=
  StruktosLogger.mkLogger { minLevel := some .warn } []

/-- A logger with includeStackTrace disabled. -/
def noStackLogger : StruktosLogger :=
  StruktosLogger.mkLogger { includeStackTrace := some false } []

/-- The spec's example default metadata, a=1 and b=1. -/
def exDefaultMeta : Metadata := [("a", .num 1), ("b", .num 1)]

/-- The spec's example child metadata, b=2 and c=2. -/
def exChildMeta : Metadata := [("b", .num 2), ("c", .num 2)]

/-- The spec's example per-call metadata, c=3 and d=3. -/
def exCallMeta : Metadata := [("c", .num 3), ("d", .num 3)]

/-- A logger whose default metadata is the spec's example. -/
def exLogger : StruktosLogger :=
  StruktosLogger.mkLogger { defaultMetadata := some exDefaultMeta } []

/-- An output sink that always throws. -/
def throwingSink : LogEntry → Except String Unit :=
  fun _ => Except.error "sink failure"

/-! Helper lemmas about the metadata-map model. -/

theorem getKey_cons (k0 : String) (v0 : JSValue) (rest : Metadata)
    (key : String) :
    getKey ((k0, v0) :: rest) key =
      match getKey rest key with
      | some w => some w
      | none => if k0 = key then some v0 else none := rfl

theorem getKey_append_single (m : Metadata) (k : String) (v : JSValue)
    (key : String) :
    getKey (m ++ [(k, v)]) key = if k = key then some v else getKey m key := by
  induction m with
  | nil => rfl
  | cons p rest ih =>
      obtain ⟨k0, v0⟩ := p
      rw [List.cons_append, getKey_cons, ih, getKey_cons]
      by_cases h : k = key <;> simp [h]

theorem getKey_replace (m : Metadata) (k : String) (v : JSValue)
    (key : String) :
    getKey (m.map (fun p => if p.1 = k then (k, v) else p)) key =
      if k = key then (if hasKey m k then some v else none)
      else getKey m key := by
  induction m with
  | nil => by_cases h : k = key <;> simp [getKey, hasKey, h]
  | cons p rest ih =>
      obtain ⟨k0, v0⟩ := p
      rw [List.map_cons]
      by_cases hk0 : k0 = k
      · subst hk0
        have hhead :
            (if ((k0, v0) : String × JSValue).1 = k0 then (k0, v)
              else (k0, v0)) = (k0, v) := by simp
        rw [hhead, getKey_cons, ih, getKey_cons]
        by_cases h : k0 = key
        · subst h
          by_cases hr : hasKey rest k0 <;> simp_all [hasKey]
        · cases hm : getKey rest key <;> simp [h, hm]
      · have hhead :
            (if ((k0, v0) : String × JSValue).1 = k then (k, v)
              else (k0, v0)) = (k0, v0) := by simp [hk0]
        rw [hhead, getKey_cons, ih, getKey_cons]
        by_cases h : k = key
        · subst h
          by_cases hr : hasKey rest k <;> simp_all [hasKey, hk0]
        · simp [h]

theorem getKey_setKey (m : Metadata) (k : String) (v : JSValue)
    (key : String) :
    getKey (setKey m k v) key = if k = key then some v else getKey m key := by
  unfold setKey
  by_cases h : hasKey m k
  · simp only [h, if_true, getKey_replace]
  · simp only [h, Bool.false_eq_true, if_false, getKey_append_single]

theorem getKey_mergeMeta (a b : Metadata) (key : String) :
    getKey (mergeMeta a b) key = firstSome (getKey b key) (getKey a key) := by
  induction b generalizing a with
  | nil => rfl
  | cons p rest ih =>
      obtain ⟨k1, v1⟩ := p
      show getKey (mergeMeta (setKey a k1 v1) rest) key = _
      rw [ih, getKey_setKey, getKey_cons]
      cases hr : getKey rest key <;> by_cases h : k1 = key <;>
        simp [firstSome, h]

theorem getKey_removeKey_self (m : Metadata) (k : String) :
    getKey (removeKey m k) k = none := by
  induction m with
  | nil => rfl
  | cons p rest ih =>
      obtain ⟨k0, v0⟩ := p
      by_cases h : k0 = k
      · simp [removeKey, h, ih]
      · simp [removeKey, h, getKey_cons, ih]

theorem getKey_removeKey_ne (m : Metadata) (k key : String) (h : key ≠ k) :
    getKey (removeKey m k) key = getKey m key := by
  induction m with
  | nil => rfl
  | cons p rest ih =>
      obtain ⟨k0, v0⟩ := p
      by_cases h0 : k0 = k
      · have hk : ¬ k0 = key := fun hh => h (hh ▸ h0)
        rw [removeKey, if_pos h0, ih, getKey_cons]
        cases hr : getKey rest key <;> simp [hk]
      · rw [removeKey, if_neg h0, getKey_cons, getKey_cons, ih]

theorem buildLogEntry_level (L : StruktosLogger) (lvl : LogLevel)
    (msg : String) (m : Metadata) (now : Nat) (amb : AmbientContext) :
    (L.buildLogEntry lvl msg m now amb).level = lvl := by
  simp only [StruktosLogger.buildLogEntry]
  repeat' split
  all_goals rfl

theorem buildLogEntry_message (L : StruktosLogger) (lvl : LogLevel)
    (msg : String) (m : Metadata) (now : Nat) (amb : AmbientContext) :
    (L.buildLogEntry lvl msg m now amb).message = msg := by
  simp only [StruktosLogger.buildLogEntry]
  repeat' split
  all_goals rfl

theorem buildLogEntry_timestamp (L : StruktosLogger) (lvl : LogLevel)
    (msg : String) (m : Metadata) (now : Nat) (amb : AmbientContext) :
    (L.buildLogEntry lvl msg m now amb).timestamp = now := by
  simp only [StruktosLogger.buildLogEntry]
  repeat' split
  all_goals rfl

theorem buildLogEntry_traceId (L : StruktosLogger) (lvl : LogLevel)
    (msg : String) (m : Metadata) (now : Nat) (amb : AmbientContext) :
    (L.buildLogEntry lvl msg m now amb).traceId =
      if L.options.enrichWithContext then (extractContextData amb).traceId
      else none := by
  simp only [StruktosLogger.buildLogEntry]
  repeat' split
  all_goals rfl

theorem buildLogEntry_requestId (L : StruktosLogger) (lvl : LogLevel)
    (msg : String) (m : Metadata) (now : Nat) (amb : AmbientContext) :
    (L.buildLogEntry lvl msg m now amb).requestId =
      if L.options.enrichWithContext then (extractContextData amb).requestId
      else none := by
  simp only [StruktosLogger.buildLogEntry]
  repeat' split
  all_goals rfl

theorem buildLogEntry_userId (L : StruktosLogger) (lvl : LogLevel)
    (msg : String) (m : Metadata) (now : Nat) (amb : AmbientContext) :
    (L.buildLogEntry lvl msg m now amb).userId =
      if L.options.enrichWithContext then (extractContextData amb).userId
      else none := by
  simp only [StruktosLogger.buildLogEntry]
  repeat' split
  all_goals rfl

theorem buildLogEntry_metadata (L : StruktosLogger) (lvl : LogLevel)
    (msg : String) (m : Metadata) (now : Nat) (amb : AmbientContext) :
    (L.buildLogEntry lvl msg m now amb).metadata =
      if (removeKey (mergedCallMetadata L m) "error").isEmpty then none
      else some (removeKey (mergedCallMetadata L m) "error") := by
  simp only [StruktosLogger.buildLogEntry, mergedCallMetadata]
  by_cases he :
      (mergeMeta (mergeMeta L.options.defaultMetadata L.childMetadata)
        m).isEmpty = true
  · have hnil :
        mergeMeta (mergeMeta L.options.defaultMetadata L.childMetadata) m
          = [] := List.isEmpty_iff.mp he
    simp [he, hnil, removeKey]
  · rw [if_neg he]
    cases hv :
        getKey
          (mergeMeta (mergeMeta L.options.defaultMetadata L.childMetadata) m)
          "error" with
    | none =>
        simp only [hv]
        by_cases hr :
            (removeKey
              (mergeMeta (mergeMeta L.options.defaultMetadata L.childMetadata)
                m) "error").isEmpty = true
        · simp [hr]
        · simp [hr]
    | some v =>
        simp only [hv]
        by_cases ht : truthy v = true
        · rw [if_pos ht]
          by_cases hr :
              (removeKey
                (mergeMeta
                  (mergeMeta L.options.defaultMetadata L.childMetadata) m)
                "error").isEmpty = true
          · simp [hr]
          · simp [hr]
        · rw [if_neg ht]
          by_cases hr :
              (removeKey
                (mergeMeta
                  (mergeMeta L.options.defaultMetadata L.childMetadata) m)
                "error").isEmpty = true
          · simp [hr]
          · simp [hr]

theorem buildLogEntry_error_eq (L : StruktosLogger) (lvl : LogLevel)
    (msg : String) (m : Metadata) (now : Nat) (amb : AmbientContext) :
    (L.buildLogEntry lvl msg m now amb).error =
      keepTruthy (getKey (mergedCallMetadata L m) "error") := by
  simp only [StruktosLogger.buildLogEntry, mergedCallMetadata]
  by_cases he :
      (mergeMeta (mergeMeta L.options.defaultMetadata L.childMetadata)
        m).isEmpty = true
  · have hnil :
        mergeMeta (mergeMeta L.options.defaultMetadata L.childMetadata) m
          = [] := List.isEmpty_iff.mp he
    simp [he, hnil, keepTruthy, getKey]
  · rw [if_neg he]
    cases hv :
        getKey
          (mergeMeta (mergeMeta L.options.defaultMetadata L.childMetadata) m)
          "error" with
    | none =>
        simp only [hv]
        by_cases hr :
            (removeKey
              (mergeMeta (mergeMeta L.options.defaultMetadata L.childMetadata)
                m) "error").isEmpty = true
        · simp [hr, keepTruthy]
        · simp [hr, keepTruthy]
    | some v =>
        simp only [hv]
        by_cases ht : truthy v = true
        · rw [if_pos ht]
          simp [keepTruthy, ht]
        · rw [if_neg ht]
          by_cases hr :
              (removeKey
                (mergeMeta
                  (mergeMeta L.options.defaultMetadata L.childMetadata) m)
                "error").isEmpty = true
          · simp [hr, keepTruthy, ht]
          · simp [hr, keepTruthy, ht]

theorem getKey_append (a b : Metadata) (key : String) :
    getKey (a ++ b) key = firstSome (getKey b key) (getKey a key) := by
  induction a with
  | nil => cases hb : getKey b key <;> simp [firstSome, hb, getKey]
  | cons p rest ih =>
      obtain ⟨k0, v0⟩ := p
      rw [List.cons_append, getKey_cons, ih, getKey_cons]
      cases hb : getKey b key <;> cases hr : getKey rest key <;>
        simp [firstSome, hb, hr]

theorem getKey_filter_of_pred (l : Metadata) (p : String × JSValue → Bool)
    (k : String) (hp : ∀ v, p (k, v) = true) :
    getKey (l.filter p) k = getKey l k := by
  induction l with
  | nil => rfl
  | cons q rest ih =>
      obtain ⟨k0, v0⟩ := q
      by_cases h0 : p (k0, v0) = true
      · rw [List.filter_cons_of_pos h0, getKey_cons, ih, getKey_cons]
      · rw [List.filter_cons_of_neg (by simpa using h0), ih, getKey_cons]
        have hk0 : ¬ k0 = k := fun hh => h0 (hh ▸ hp v0)
        cases hm : getKey rest k <;> simp [hm, hk0]

theorem getKey_filter_of_not_pred (l : Metadata) (p : String × JSValue → Bool)
    (k : String) (hp : ∀ v, p (k, v) = false) :
    getKey (l.filter p) k = none := by
  induction l with
  | nil => rfl
  | cons q rest ih =>
      obtain ⟨k0, v0⟩ := q
      by_cases h0 : p (k0, v0) = true
      · rw [List.filter_cons_of_pos h0, getKey_cons, ih]
        have hk0 : ¬ k0 = k := by
          intro hh
          subst hh
          rw [hp v0] at h0
          exact Bool.false_ne_true h0
        simp [hk0]
      · rw [List.filter_cons_of_neg (by simpa using h0), ih]

/-- At level `error` the rank check always passes: its rank 3 is the
maximum of the four ranks. -/
theorem shouldLog_error_true (L : StruktosLogger) :
    L.shouldLog .error = true := by
  cases h : L.options.minLevel <;>
    simp [StruktosLogger.shouldLog, LOG_LEVELS, h]

/-- The `error` method always reaches the sink: it delegates to `log` at
level error with the error-augmented metadata, and the filter passes. -/
theorem errorCall_eq (L : StruktosLogger) (msg : String) (v : JSValue)
    (md : Metadata) (now : Nat) (amb : AmbientContext) :
    L.errorCall msg v md now amb =
      some (L.buildLogEntry .error msg
        (match L.serializeError v with
         | some d => mergeMeta md [("error", d)]
         | none => md) now amb) := by
  unfold StruktosLogger.errorCall StruktosLogger.log
  rw [if_pos (shouldLog_error_true L)]

/-- Whatever `serializeError` returns is an object, hence truthy. -/
theorem serializeError_truthy (L : StruktosLogger) (v : JSValue)
    (d : JSValue) (hd : L.serializeError v = some d) : truthy d = true := by
  by_cases ht : truthy v = true
  · unfold StruktosLogger.serializeError at hd
    rw [ht] at hd
    simp only [Bool.not_true, Bool.false_eq_true, if_false] at hd
    cases v with
    | errObj n m st ex =>
        have hobj := Option.some.inj hd
        rw [← hobj]
        rfl
    | undef => simp [truthy] at ht
    | null => simp [truthy] at ht
    | bool b =>
        have hobj := Option.some.inj hd
        rw [← hobj]
        rfl
    | num n =>
        have hobj := Option.some.inj hd
        rw [← hobj]
        rfl
    | str s =>
        have hobj := Option.some.inj hd
        rw [← hobj]
        rfl
    | obj fs =>
        have hobj := Option.some.inj hd
        rw [← hobj]
        rfl
  · unfold StruktosLogger.serializeError at hd
    have ht' : truthy v = false := by
      cases hb : truthy v
      · rfl
      · exact absurd hb ht
    rw [ht'] at hd
    simp at hd

/-- When an error value serializes, the record's error field is exactly the
serialized object: the `error` key set by the error method is the last
spread, so it overrides any caller-supplied `error` entry, and the
serialized object is truthy, so the `if (error)` guard keeps it. -/
theorem errorCall_error_of_serialized (L : StruktosLogger) (msg : String)
    (v : JSValue) (md : Metadata) (now : Nat) (amb : AmbientContext)
    (d : JSValue) (hd : L.serializeError v = some d) :
    ∃ e, L.errorCall msg v md now amb = some e ∧ e.error = some d := by
  refine ⟨L.buildLogEntry .error msg (mergeMeta md [("error", d)]) now amb,
    ?_, ?_⟩
  · rw [errorCall_eq, hd]
  · rw [buildLogEntry_error_eq]
    have h1 : getKey (mergedCallMetadata L (mergeMeta md [("error", d)]))
        "error" = some d := by
      simp only [mergedCallMetadata, getKey_mergeMeta]
      rfl
    rw [h1]
    simp [keepTruthy, serializeError_truthy L v d hd]

/-- On an `Error` instance, `serializeError` yields exactly the object with
the fields of `serializedErrorFields`. -/
theorem serializeError_errObj (L : StruktosLogger) (name emsg : String)
    (stack : Option String) (extra : Metadata) :
    L.serializeError (.errObj name emsg stack extra) =
      some (.obj (serializedErrorFields L name emsg stack extra)) := by
  cases stack with
  | none => rfl
  | some st =>
      by_cases hc : (L.options.includeStackTrace && !st.isEmpty) = true
      · simp [StruktosLogger.serializeError, truthy, serializedErrorFields,
          hc]
      · simp [StruktosLogger.serializeError, truthy, serializedErrorFields,
          hc]

/-- A serialization is produced exactly when the error value is truthy. -/
theorem serializeError_isSome (L : StruktosLogger) (v : JSValue) :
    (L.serializeError v).isSome = truthy v := by
  by_cases ht : truthy v = true
  · unfold StruktosLogger.serializeError
    rw [ht]
    simp only [Bool.not_true, Bool.false_eq_true, if_false]
    cases v <;> rfl
  · have ht' : truthy v = false := by
      cases hb : truthy v
      · rfl
      · exact absurd hb ht
    unfold StruktosLogger.serializeError
    rw [ht']
    rfl

/-- A record produced by `log` carries the clock value of its own call. -/
theorem log_some_timestamp (L : StruktosLogger) (lvl : LogLevel)
    (msg : String) (m : Metadata) (now : Nat) (amb : AmbientContext)
    (e : LogEntry) (h : L.log lvl msg m now amb = some e) :
    e.timestamp = now := by
  unfold StruktosLogger.log at h
  by_cases hs : L.shouldLog lvl = true
  · rw [if_pos hs] at h
    rw [← Option.some.inj h, buildLogEntry_timestamp]
  · rw [if_neg hs] at h
    cases h

/-- Lookup on the serialized error fields, split by append. -/
theorem getKey_serFields (L : StruktosLogger) (name emsg : String)
    (stack : Option String) (extra : Metadata) (k : String) :
    getKey (serializedErrorFields L name emsg stack extra) k =
      firstSome
        (getKey (extra.filter (fun p =>
            p.1 != "name" && p.1 != "message" && p.1 != "stack")) k)
        (getKey (match stack with
          | some st =>
              if (L.options.includeStackTrace && !st.isEmpty) = true then
                [("name", JSValue.str name), ("message", JSValue.str emsg),
                  ("stack", JSValue.str st)]
              else [("name", JSValue.str name), ("message", JSValue.str emsg)]
          | none => [("name", JSValue.str name),
              ("message", JSValue.str emsg)]) k) :=
  getKey_append _ _ _

/-- C1: for every configured minLevel and every call level, a logging call
invokes the configured output sink exactly once with the constructed record
iff rank(callLevel) >= rank(minLevel) (the `some` case of `log`), and when
the rank is below the threshold the call yields `none`: no record is
constructed and the sink is never invoked.  The debug/info/warn methods are
exactly `log` at their level. -/
theorem C1_level_filtering (L : StruktosLogger) (lvl : LogLevel)
    (msg : String) (m : Metadata) (now : Nat) (amb : AmbientContext) :
    ((L.log lvl msg m now amb).isSome = true ↔
      LOG_LEVELS L.options.minLevel ≤ LOG_LEVELS lvl)
    ∧ (∀ e, L.log lvl msg m now amb = some e →
        e = L.buildLogEntry lvl msg m now amb)
    ∧ (LOG_LEVELS lvl < LOG_LEVELS L.options.minLevel →
        L.log lvl msg m now amb = none)
    ∧ L.debug msg m now amb = L.log .debug msg m now amb
    ∧ L.info msg m now amb = L.log .info msg m now amb
    ∧ L.warn msg m now amb = L.log .warn msg m now amb := by
  refine ⟨?_, ?_, ?_, rfl, rfl, rfl⟩
  · unfold StruktosLogger.log StruktosLogger.shouldLog
    by_cases h : LOG_LEVELS L.options.minLevel ≤ LOG_LEVELS lvl
    · simp [h, ge_iff_le]
    · simp [h, ge_iff_le]
  · intro e he
    unfold StruktosLogger.log at he
    by_cases h : L.shouldLog lvl = true
    · rw [if_pos h] at he
      exact (Option.some.inj he).symm
    · rw [if_neg h] at he
      cases he
  · intro hlt
    unfold StruktosLogger.log StruktosLogger.shouldLog
    have h : ¬ LOG_LEVELS L.options.minLevel ≤ LOG_LEVELS lvl :=
      not_le.mpr hlt
    simp [h, ge_iff_le]

/-- C1 witness: with minLevel warn, a debug call is filtered (no sink
invocation) and an error call produces a record. -/
theorem C1_witness :
    warnLogger.log .debug "m" [] 0 .noCtx = none
    ∧ (warnLogger.log .error "m" [] 0 .noCtx).isSome = true := by
  constructor
  · exact (C1_level_filtering warnLogger .debug "m" [] 0 .noCtx).2.2.1
      (by decide)
  · exact ((C1_level_filtering warnLogger .error "m" [] 0 .noCtx).1).mpr
      (by decide)

/-- C2: for every record, on every key other than the reserved `error`, the
record's metadata field looks up as the per-call metadata, else the
accumulated child metadata, else the default metadata — later sources
winning on collision. -/
theorem C2_metadata_merge_precedence (L : StruktosLogger) (lvl : LogLevel)
    (msg : String) (m : Metadata) (now : Nat) (amb : AmbientContext)
    (k : String) (hk : k ≠ "error") :
    getKey ((L.buildLogEntry lvl msg m now amb).metadata.getD []) k =
      firstSome (getKey m k)
        (firstSome (getKey L.childMetadata k)
          (getKey L.options.defaultMetadata k)) := by
  have hR : firstSome (getKey m k)
      (firstSome (getKey L.childMetadata k)
        (getKey L.options.defaultMetadata k))
      = getKey (mergedCallMetadata L m) k := by
    rw [mergedCallMetadata, getKey_mergeMeta, getKey_mergeMeta]
  rw [buildLogEntry_metadata, hR]
  by_cases hr : (removeKey (mergedCallMetadata L m) "error").isEmpty = true
  · rw [if_pos hr]
    have h1 : getKey (mergedCallMetadata L m) k = none := by
      rw [← getKey_removeKey_ne (mergedCallMetadata L m) "error" k hk,
        List.isEmpty_iff.mp hr]
      rfl
    rw [h1]
    rfl
  · rw [if_neg hr]
    exact getKey_removeKey_ne _ _ _ hk

/-- C2 witness: the spec's example — defaultMetadata a=1,b=1, a child with
b=2,c=2, a call with c=3,d=3 — yields the metadata map a=1,b=2,c=3,d=3; the
overridden key b is checked through the theorem. -/
theorem C2_witness :
    ("b" : String) ≠ "error"
    ∧ getKey (((exLogger.child exChildMeta).buildLogEntry .info "m"
        exCallMeta 5 .noCtx).metadata.getD []) "b" = some (.num 2)
    ∧ ((exLogger.child exChildMeta).buildLogEntry .info "m" exCallMeta 5
        .noCtx).metadata =
        some [("a", .num 1), ("b", .num 2), ("c", .num 3), ("d", .num 3)] := by
  refine ⟨by decide, ?_, rfl⟩
  have h := C2_metadata_merge_precedence (exLogger.child exChildMeta) .info
    "m" exCallMeta 5 .noCtx "b" (by decide)
  exact h.trans rfl

/-- C3 counterexample: with merged metadata holding the falsy value `false`
under the reserved key `error`, the record is built (info passes the filter)
with NO error field at all — the claim as stated says the value under
`error` becomes the record's error field, but the source's `if (error)`
truthiness guard drops it. -/
theorem C3_counterexample :
    getKey (mergedCallMetadata plainLogger [("error", JSValue.bool false)])
        "error" = some (JSValue.bool false)
    ∧ plainLogger.log .info "m" [("error", JSValue.bool false)] 0 .noCtx
        = some (plainLogger.buildLogEntry .info "m"
            [("error", JSValue.bool false)] 0 .noCtx)
    ∧ (plainLogger.buildLogEntry .info "m" [("error", JSValue.bool false)] 0
        .noCtx).error = none
    ∧ (plainLogger.buildLogEntry .info "m" [("error", JSValue.bool false)] 0
        .noCtx).metadata = none :=
  ⟨rfl, rfl, rfl, rfl⟩

/-- C3 (amended): for every record built at any level, the reserved key
`error` never remains in the record's metadata field; the value under it
becomes the record's error field exactly when it is truthy (a falsy value
under `error` is dropped entirely, appearing in neither place); and the
metadata field is omitted (none, never an empty structure) iff no keys other
than `error` remain after the merge. -/
theorem C3_error_key_extraction (L : StruktosLogger) (lvl : LogLevel)
    (msg : String) (m : Metadata) (now : Nat) (amb : AmbientContext) :
    getKey ((L.buildLogEntry lvl msg m now amb).metadata.getD []) "error"
        = none
    ∧ (L.buildLogEntry lvl msg m now amb).error
        = keepTruthy (getKey (mergedCallMetadata L m) "error")
    ∧ ((L.buildLogEntry lvl msg m now amb).metadata = none ↔
        (removeKey (mergedCallMetadata L m) "error").isEmpty = true) := by
  refine ⟨?_, buildLogEntry_error_eq L lvl msg m now amb, ?_⟩
  · rw [buildLogEntry_metadata]
    by_cases hr : (removeKey (mergedCallMetadata L m) "error").isEmpty = true
    · rw [if_pos hr]
      rfl
    · rw [if_neg hr]
      exact getKey_removeKey_self _ _
  · rw [buildLogEntry_metadata]
    by_cases hr : (removeKey (mergedCallMetadata L m) "error").isEmpty = true
    · simp [hr]
    · simp [hr]

/-- C4: for every standard error object passed to the error method, the
record's error field is the serialized object whose fields are exactly
`name`, `message`, the stack string iff includeStackTrace is true and the
stack is present (truthy), and every further enumerable own property beyond
name/message/stack copied through verbatim; with includeStackTrace false
the stack key is omitted. -/
theorem C4_error_object_serialization (L : StruktosLogger)
    (msg name emsg : String) (stack : Option String) (extra md : Metadata)
    (now : Nat) (amb : AmbientContext) :
    (∃ e, L.errorCall msg (.errObj name emsg stack extra) md now amb = some e
        ∧ e.error = some (.obj (serializedErrorFields L name emsg stack
            extra)))
    ∧ getKey (serializedErrorFields L name emsg stack extra) "name"
        = some (.str name)
    ∧ getKey (serializedErrorFields L name emsg stack extra) "message"
        = some (.str emsg)
    ∧ getKey (serializedErrorFields L name emsg stack extra) "stack"
        = (match stack with
           | some st =>
               if (L.options.includeStackTrace && !st.isEmpty) = true then
                 some (.str st)
               else none
           | none => none)
    ∧ (∀ k, k ≠ "name" → k ≠ "message" → k ≠ "stack" →
        getKey (serializedErrorFields L name emsg stack extra) k
          = getKey extra k) := by
  refine ⟨?_, ?_, ?_, ?_, ?_⟩
  · exact errorCall_error_of_serialized L msg _ md now amb _
      (serializeError_errObj L name emsg stack extra)
  · rw [getKey_serFields,
      getKey_filter_of_not_pred extra _ "name" (fun v => rfl)]
    cases stack with
    | none => rfl
    | some st =>
        by_cases hc : (L.options.includeStackTrace && !st.isEmpty) = true
        · simp only [hc, if_true, firstSome]
          rfl
        · simp only [hc, if_false, firstSome]
          rfl
  · rw [getKey_serFields,
      getKey_filter_of_not_pred extra _ "message" (fun v => rfl)]
    cases stack with
    | none => rfl
    | some st =>
        by_cases hc : (L.options.includeStackTrace && !st.isEmpty) = true
        · simp only [hc, if_true, firstSome]
          rfl
        · simp only [hc, if_false, firstSome]
          rfl
  · rw [getKey_serFields,
      getKey_filter_of_not_pred extra _ "stack" (fun v => rfl)]
    cases stack with
    | none => rfl
    | some st =>
        by_cases hc : (L.options.includeStackTrace && !st.isEmpty) = true
        · simp only [hc, if_true, firstSome]
          rfl
        · simp only [hc, if_false, firstSome]
          rfl
  · intro k hk1 hk2 hk3
    have hp : ∀ v, (fun p : String × JSValue =>
        p.1 != "name" && p.1 != "message" && p.1 != "stack") (k, v)
          = true := by
      intro v
      simp [hk1, hk2, hk3]
    rw [getKey_serFields, getKey_filter_of_pred extra _ k hp]
    have hw : getKey (match stack with
        | some st =>
            if (L.options.includeStackTrace && !st.isEmpty) = true then
              [("name", JSValue.str name), ("message", JSValue.str emsg),
                ("stack", JSValue.str st)]
            else [("name", JSValue.str name), ("message", JSValue.str emsg)]
        | none => [("name", JSValue.str name),
            ("message", JSValue.str emsg)]) k = none := by
      cases stack with
      | none => simp [getKey, Ne.symm hk1, Ne.symm hk2]
      | some st =>
          by_cases hc : (L.options.includeStackTrace && !st.isEmpty) = true
          · simp only [hc, if_true]
            simp [getKey, Ne.symm hk1, Ne.symm hk2, Ne.symm hk3]
          · simp only [hc, if_false]
            simp [getKey, Ne.symm hk1, Ne.symm hk2]
    rw [hw]
    cases he : getKey extra k <;> simp [firstSome]

/-- C4 witness: an error object with a stack and a domain-specific `code`
property, logged through a default logger (stack kept) and through a logger
with includeStackTrace false (stack omitted). -/
theorem C4_witness :
    (∃ e, plainLogger.errorCall "msg"
        (.errObj "Error" "boom" (some "STACK") [("code", .num 42)]) [] 0
        .noCtx = some e
      ∧ e.error = some (.obj (serializedErrorFields plainLogger "Error"
          "boom" (some "STACK") [("code", .num 42)])))
    ∧ getKey (serializedErrorFields plainLogger "Error" "boom" (some "STACK")
        [("code", .num 42)]) "stack" = some (.str "STACK")
    ∧ getKey (serializedErrorFields plainLogger "Error" "boom" (some "STACK")
        [("code", .num 42)]) "code" = some (.num 42)
    ∧ getKey (serializedErrorFields noStackLogger "Error" "boom"
        (some "STACK") []) "stack" = none := by
  refine ⟨?_, ?_, ?_, ?_⟩
  · exact (C4_error_object_serialization plainLogger "msg" "Error" "boom"
      (some "STACK") [("code", .num 42)] [] 0 .noCtx).1
  · exact ((C4_error_object_serialization plainLogger "msg" "Error" "boom"
      (some "STACK") [("code", .num 42)] [] 0 .noCtx).2.2.2.1).trans rfl
  · exact ((C4_error_object_serialization plainLogger "msg" "Error" "boom"
      (some "STACK") [("code", .num 42)] [] 0 .noCtx).2.2.2.2 "code"
      (by decide) (by decide) (by decide)).trans rfl
  · exact ((C4_error_object_serialization noStackLogger "msg" "Error" "boom"
      (some "STACK") [] [] 0 .noCtx).2.2.2.1).trans rfl

/-- C5 counterexample: the number 0 is non-nullish and not an error object,
so the claim says the record's error field is the object with
message = String(0) = "0"; but the source's `if (!error)` guard tests
FALSINESS, and 0 is falsy, so no error field is produced at all. -/
theorem C5_counterexample :
    JSValue.num 0 ≠ JSValue.undef
    ∧ JSValue.num 0 ≠ JSValue.null
    ∧ instanceofError (.num 0) = false
    ∧ plainLogger.errorCall "msg" (.num 0) [] 0 .noCtx
        = some (plainLogger.buildLogEntry .error "msg" [] 0 .noCtx)
    ∧ (plainLogger.buildLogEntry .error "msg" [] 0 .noCtx).error = none
    ∧ (plainLogger.buildLogEntry .error "msg" [] 0 .noCtx).error
        ≠ some (.obj [("message", .str "0")]) :=
  ⟨fun h => JSValue.noConfusion h, fun h => JSValue.noConfusion h, rfl, rfl,
    rfl, fun h => Option.noConfusion h⟩

/-- C5 (amended): the guard on the supplied error value is JS falsiness,
not nullishness: a falsy error value (nullish, 0, empty string, false)
yields a record with no error field, while a truthy value that is not an
error object yields the error field with only message = String(value) —
provided the logger's own default/child metadata does not itself carry a
truthy `error` entry. -/
theorem C5_falsy_and_non_error_values (L : StruktosLogger) (msg : String)
    (v : JSValue) (now : Nat) (amb : AmbientContext)
    (hclean : keepTruthy (getKey
        (mergeMeta L.options.defaultMetadata L.childMetadata) "error")
      = none) :
    (truthy v = false →
      ∃ e, L.errorCall msg v [] now amb = some e ∧ e.error = none)
    ∧ (truthy v = true → instanceofError v = false →
      ∃ e, L.errorCall msg v [] now amb = some e
        ∧ e.error = some (.obj [("message", .str (jsToString v))])) := by
  constructor
  · intro ht
    have hser : L.serializeError v = none := by
      unfold StruktosLogger.serializeError
      rw [ht]
      rfl
    refine ⟨L.buildLogEntry .error msg [] now amb, ?_, ?_⟩
    · rw [errorCall_eq, hser]
    · rw [buildLogEntry_error_eq]
      exact hclean
  · intro ht hobj
    have hser : L.serializeError v
        = some (.obj [("message", .str (jsToString v))]) := by
      unfold StruktosLogger.serializeError
      rw [ht]
      simp only [Bool.not_true, Bool.false_eq_true, if_false]
      cases v <;> simp_all [instanceofError]
    exact errorCall_error_of_serialized L msg v [] now amb _ hser

/-- C5 witness: a plain string as the error value yields
error = (message = "just a string") with no name and no stack key. -/
theorem C5_witness :
    keepTruthy (getKey (mergeMeta plainLogger.options.defaultMetadata
        plainLogger.childMetadata) "error") = none
    ∧ truthy (.str "just a string") = true
    ∧ instanceofError (.str "just a string") = false
    ∧ (∃ e, plainLogger.errorCall "msg" (.str "just a string") [] 0 .noCtx
        = some e
      ∧ e.error = some (.obj [("message", .str "just a string")])) := by
  refine ⟨rfl, rfl, rfl, ?_⟩
  exact (C5_falsy_and_non_error_values plainLogger "msg"
    (.str "just a string") 0 .noCtx rfl).2 rfl rfl

/-- C6: with enrichWithContext enabled, each of traceId/requestId/userId is
copied into the record iff the ambient context holds a truthy value for it;
when the ambient lookup returns nothing or throws, the record carries none
of the three fields, and in every case the call still produces its record
whenever the level passes the filter (no exception reaches the caller). -/
theorem C6_context_enrichment (L : StruktosLogger) (lvl : LogLevel)
    (msg : String) (m : Metadata) (now : Nat)
    (henrich : L.options.enrichWithContext = true) :
    (∀ d, (L.buildLogEntry lvl msg m now (.active d)).traceId
        = keepTruthy (getKey d "traceId")
      ∧ (L.buildLogEntry lvl msg m now (.active d)).requestId
        = keepTruthy (getKey d "requestId")
      ∧ (L.buildLogEntry lvl msg m now (.active d)).userId
        = keepTruthy (getKey d "userId"))
    ∧ ((L.buildLogEntry lvl msg m now .noCtx).traceId = none
      ∧ (L.buildLogEntry lvl msg m now .noCtx).requestId = none
      ∧ (L.buildLogEntry lvl msg m now .noCtx).userId = none)
    ∧ ((L.buildLogEntry lvl msg m now .throws).traceId = none
      ∧ (L.buildLogEntry lvl msg m now .throws).requestId = none
      ∧ (L.buildLogEntry lvl msg m now .throws).userId = none)
    ∧ (∀ amb, (L.log lvl msg m now amb).isSome = L.shouldLog lvl) := by
  refine ⟨?_, ⟨?_, ?_, ?_⟩, ⟨?_, ?_, ?_⟩, ?_⟩
  · intro d
    refine ⟨?_, ?_, ?_⟩
    · rw [buildLogEntry_traceId, if_pos henrich]
      rfl
    · rw [buildLogEntry_requestId, if_pos henrich]
      rfl
    · rw [buildLogEntry_userId, if_pos henrich]
      rfl
  · rw [buildLogEntry_traceId, if_pos henrich]
    rfl
  · rw [buildLogEntry_requestId, if_pos henrich]
    rfl
  · rw [buildLogEntry_userId, if_pos henrich]
    rfl
  · rw [buildLogEntry_traceId, if_pos henrich]
    rfl
  · rw [buildLogEntry_requestId, if_pos henrich]
    rfl
  · rw [buildLogEntry_userId, if_pos henrich]
    rfl
  · intro amb
    unfold StruktosLogger.log
    by_cases hs : L.shouldLog lvl = true
    · rw [if_pos hs, hs]
      rfl
    · rw [if_neg hs]
      have hs' : L.shouldLog lvl = false := by
        cases hb : L.shouldLog lvl
        · rfl
        · exact absurd hb hs
      rw [hs']
      rfl

/-- C6 witness: on the default logger (enrichment on), a call with no
ambient context yields a record without traceId; a call inside a context
holding a truthy traceId copies it. -/
theorem C6_witness :
    plainLogger.options.enrichWithContext = true
    ∧ (plainLogger.buildLogEntry .info "m" [] 0 .noCtx).traceId = none
    ∧ (plainLogger.buildLogEntry .info "m" [] 0 .throws).traceId = none
    ∧ (plainLogger.buildLogEntry .info "m" [] 7
        (.active [("traceId", .str "t1")])).traceId = some (.str "t1") := by
  refine ⟨rfl, ?_, ?_, ?_⟩
  · exact (C6_context_enrichment plainLogger .info "m" [] 0 rfl).2.1.1
  · exact (C6_context_enrichment plainLogger .info "m" [] 0 rfl).2.2.1.1
  · exact (((C6_context_enrichment plainLogger .info "m" [] 7 rfl).1
      [("traceId", .str "t1")]).1).trans rfl

/-- C7: child returns a new logger whose resolved configuration equals the
parent's (the constructor's defaulting is the identity on an already
resolved configuration, so the shared-by-reference config is observably
unchanged) and whose accumulated child metadata is the parent's overridden
by the new metadata, new keys winning; in this pure embedding neither
logger holds mutable state, so creating or using the child cannot change
the parent's behaviour, nor vice versa. -/
theorem C7_child_logger (L : StruktosLogger) (m : Metadata) :
    (L.child m).options = L.options
    ∧ (L.child m).childMetadata = mergeMeta L.childMetadata m
    ∧ (∀ k, getKey ((L.child m).childMetadata) k
        = firstSome (getKey m k) (getKey L.childMetadata k)) := by
  refine ⟨rfl, rfl, ?_⟩
  intro k
  exact getKey_mergeMeta L.childMetadata m k

/-- C8: the record's timestamp equals the clock value captured inside its
own logging call, so two sequential non-filtered calls under a
non-decreasing clock produce non-decreasing timestamps. -/
theorem C8_timestamp_capture (L : StruktosLogger) (lvl1 lvl2 : LogLevel)
    (msg1 msg2 : String) (m1 m2 : Metadata) (t1 t2 : Nat)
    (amb1 amb2 : AmbientContext) (e1 e2 : LogEntry)
    (h1 : L.log lvl1 msg1 m1 t1 amb1 = some e1)
    (h2 : L.log lvl2 msg2 m2 t2 amb2 = some e2)
    (hle : t1 ≤ t2) :
    e1.timestamp = t1 ∧ e2.timestamp = t2 ∧ e1.timestamp ≤ e2.timestamp := by
  have ht1 := log_some_timestamp L lvl1 msg1 m1 t1 amb1 e1 h1
  have ht2 := log_some_timestamp L lvl2 msg2 m2 t2 amb2 e2 h2
  refine ⟨ht1, ht2, ?_⟩
  rw [ht1, ht2]
  exact hle

/-- C8 witness: two sequential info calls at clock values 3 and 5. -/
theorem C8_witness :
    plainLogger.log .info "a" [] 3 .noCtx
        = some (plainLogger.buildLogEntry .info "a" [] 3 .noCtx)
    ∧ (plainLogger.buildLogEntry .info "a" [] 3 .noCtx).timestamp
        ≤ (plainLogger.buildLogEntry .info "b" [] 5 .noCtx).timestamp := by
  refine ⟨rfl, ?_⟩
  exact (C8_timestamp_capture plainLogger .info .info "a" "b" [] [] 3 5
    .noCtx .noCtx _ _ rfl rfl (by decide)).2.2

/-- C9: a serialization is produced exactly when the error value passes the
truthiness guard; when it is produced it overrides any caller-supplied
`error` metadata entry (the record's error field is exactly the serialized
object); when it is not, a truthy `error` entry already present in the
merged per-call/child/default metadata itself becomes the record's error
field. -/
theorem C9_error_value_precedence (L : StruktosLogger) (msg : String)
    (v : JSValue) (md : Metadata) (now : Nat) (amb : AmbientContext) :
    ((L.serializeError v).isSome = truthy v)
    ∧ (∀ d, L.serializeError v = some d →
      ∃ e, L.errorCall msg v md now amb = some e ∧ e.error = some d)
    ∧ (L.serializeError v = none →
      ∃ e, L.errorCall msg v md now amb = some e
        ∧ e.error = keepTruthy (getKey (mergedCallMetadata L md) "error")) := by
  refine ⟨serializeError_isSome L v, ?_, ?_⟩
  · intro d hd
    exact errorCall_error_of_serialized L msg v md now amb d hd
  · intro hn
    refine ⟨L.buildLogEntry .error msg md now amb, ?_, ?_⟩
    · rw [errorCall_eq, hn]
    · exact buildLogEntry_error_eq L .error msg md now amb

/-- C9 witness: a serialized error object overrides the caller's `error`
metadata entry; with a nullish error value, the caller's truthy `error`
entry becomes the record's error field. -/
theorem C9_witness :
    (∃ e, plainLogger.errorCall "m" (.errObj "E" "boom" none [])
        [("error", .str "caller")] 0 .noCtx = some e
      ∧ e.error = some (.obj [("name", .str "E"), ("message", .str "boom")]))
    ∧ (∃ e, plainLogger.errorCall "m" .null [("error", .str "fromMeta")] 0
        .noCtx = some e
      ∧ e.error = some (.str "fromMeta")) := by
  constructor
  · exact (C9_error_value_precedence plainLogger "m"
      (.errObj "E" "boom" none []) [("error", .str "caller")] 0 .noCtx).2.1
      _ rfl
  · obtain ⟨e, he, herr⟩ := (C9_error_value_precedence plainLogger "m"
      .null [("error", .str "fromMeta")] 0 .noCtx).2.2 rfl
    exact ⟨e, he, herr.trans rfl⟩

/-- C10: the sink call in the internal log dispatch is unguarded — if the
configured output sink throws on the record, the exception propagates
synchronously out of the logging call. -/
theorem C10_sink_throw_propagates (L : StruktosLogger)
    (sink : LogEntry → Except String Unit) (lvl : LogLevel) (msg : String)
    (m : Metadata) (now : Nat) (amb : AmbientContext) (e : LogEntry)
    (ex : String) (he : L.log lvl msg m now amb = some e)
    (hthrow : sink e = Except.error ex) :
    L.logWith sink lvl msg m now amb = Except.error ex := by
  unfold StruktosLogger.logWith
  rw [he]
  exact hthrow

/-- C10 witness: a sink that always throws makes the info call throw. -/
theorem C10_witness :
    plainLogger.logWith throwingSink .info "m" [] 0 .noCtx
      = Except.error "sink failure" :=
  C10_sink_throw_propagates plainLogger throwingSink .info "m" [] 0 .noCtx
    (plainLogger.buildLogEntry .info "m" [] 0 .noCtx) "sink failure" rfl rfl

end StruktosLog
